import Mathlib

/-!
Shallow embedding of the Medtrack medication-adherence application core:
the dose-schedule generator and status classifier of `DoseLogging.tsx`
and `Reminders.tsx`, and the SQL routines `log_dose` and
`get_adherence_summary` of `supabase/schema.sql`, together with the
client-side `handleMarkAsMissed` insert.

Instants are modelled as natural numbers of seconds (UTC); the four-hour
grace window is 14400 seconds.  Matching a dose log to an occurrence is
done at minute granularity (`t / 60`), mirroring the
`slice(0, 16)` comparison of ISO strings in the TypeScript code.

The schedule formula `8 + (i * (16 / frequency))` is evaluated by the
browser in IEEE binary64 arithmetic and its minutes component is truncated
by `setHours` (ECMAScript `MakeTime` applies `ToIntegerOrInfinity` to each
argument), so the embedding models binary64: nonnegative values are carried
as unreduced numerator/denominator pairs of naturals and every arithmetic
step of the source rounds through `fl`, round-to-nearest, ties-to-even, at
53 significand bits (all values involved are strictly inside the normal
range, so neither subnormals nor overflow arise).  An exact-rational
reading of the same formula is kept, clearly named `spec...`, only to
exhibit where the program diverges from it.

`get_adherence_summary` calls `ROUND(expr, 2)` on arguments of type
`double precision`; PostgreSQL has no `round(double precision, integer)`
overload (`float8 -> numeric` is an assignment cast, not implicit), so the
statement fails to resolve and every call of the function raises.  The
embedding types the `ROUND` argument and takes the error path accordingly.
-/

/-- Row of the `medications` table (the columns the core logic reads). -/
structure Medication where
  id : Nat
  user_id : Nat
  name : String
  frequency_per_day : Nat
  deriving Repr, DecidableEq

/-- Row of the `dose_logs` table (the columns the core logic reads).
Times are seconds since the epoch. -/
structure DoseLog where
  medication_id : Nat
  timestamp_taken : Nat
  scheduled_time : Nat
  taken_on_time : Bool
  reward_earned : Bool
  deriving Repr, DecidableEq

/-- Four-hour on-time / grace window, in seconds. -/
def fourHours : Nat := 14400

/-- Reference definition, from the spec's words, not the program: the
dose-hour expression `8 + i * (16 / frequency)` read in exact rational
arithmetic.  The program evaluates it in binary64 (see `jsDoseHour`); this
exact reading exists only to exhibit where the two diverge. -/
def specDoseHour (frequency i : Nat) : ℚ := 8 + i * (16 / (frequency : ℚ))

/-- Reference definition, from the spec's words, not the program: the
minute of day the exact-rational reading would give, `⌊hour * 60⌋`. -/
def specMinuteOfDay (frequency i : Nat) : ℤ := (specDoseHour frequency i * 60).floor

/-- Round a nonnegative fraction `num / den` (`den > 0`) to the nearest
integer, ties to even — the IEEE 754 default rounding of a mantissa. -/
def rneQ (num den : ℕ) : ℕ :=
  let n := num / den
  let r := num % den
  if 2 * r < den then n
  else if den < 2 * r then n + 1
  else if n % 2 = 0 then n else n + 1

/-- Double the numerator of a positive fraction until it reaches `2 ^ 52`
times the denominator, returning the scaled fraction and the number of
doublings (fuelled structural recursion; fuel 200 covers every exponent a
value of this program can take). -/
def scaleUp : ℕ → ℕ × ℕ → (ℕ × ℕ) × ℕ
  | 0, q => (q, 0)
  | fuel + 1, q =>
    if q.1 < 2 ^ 52 * q.2 then
      let r := scaleUp fuel (2 * q.1, q.2)
      (r.1, r.2 + 1)
    else (q, 0)

/-- Double the denominator until the fraction drops below `2 ^ 53`,
returning the scaled fraction and the number of doublings. -/
def scaleDown : ℕ → ℕ × ℕ → (ℕ × ℕ) × ℕ
  | 0, q => (q, 0)
  | fuel + 1, q =>
    if 2 ^ 53 * q.2 ≤ q.1 then
      let r := scaleDown fuel (q.1, 2 * q.2)
      (r.1, r.2 + 1)
    else (q, 0)

/-- IEEE binary64 rounding of a nonnegative rational, represented as an
unreduced numerator/denominator pair: scale into `[2 ^ 52, 2 ^ 53)`, round
the mantissa to nearest (ties to even), and scale back.  Faithful for
values strictly inside the normal range, which covers every quantity this
program computes. -/
def fl (q : ℕ × ℕ) : ℕ × ℕ :=
  if q.1 = 0 then (0, 1)
  else
    let u := scaleUp 200 q
    let d := scaleDown 200 u.1
    let m := rneQ d.1.1 d.1.2
    if d.2 ≤ u.2 then (m, 2 ^ (u.2 - d.2))
    else (m * 2 ^ (d.2 - u.2), 1)

/-- Floor of a nonnegative fraction. -/
def qFloor (q : ℕ × ℕ) : ℕ := q.1 / q.2

/-- The dose-hour value the browser computes, shared by
`DoseLogging.generateScheduledDoses` and `Reminders.generateScheduledDoses`:
`const hour = 8 + (i * (16 / frequency));` with each of the division, the
multiplication and the addition rounded to binary64. -/
def jsDoseHour (f i : ℕ) : ℕ × ℕ :=
  let d := fl (16, f)
  let p := fl (i * d.1, d.2)
  fl (8 * p.2 + p.1, p.2)

/-- Scheduled minute of day of dose `i`:
`scheduledTime.setHours(Math.floor(hour), (hour % 1) * 60, 0, 0)`.
`hour % 1` is exact in binary64 (the fractional bits of `hour` are a
suffix of its mantissa), the product with 60 rounds once, and ECMAScript
`MakeTime` truncates the minutes argument through `ToIntegerOrInfinity` —
the sub-minute residue is discarded, not carried into seconds. -/
def jsMinuteOfDay (f i : ℕ) : ℕ :=
  let hour := jsDoseHour f i
  let h := qFloor hour
  h * 60 + qFloor (fl (60 * (hour.1 - h * hour.2), hour.2))

/-- Whether some dose log matches the occurrence `(medId, sched)`:
`log.medication_id === medication.id && log.scheduled_time.slice(0,16) === scheduledTime.toISOString().slice(0,16)`,
i.e. equal medication id and equal scheduled instant truncated to the minute. -/
def matchesLog (logs : List DoseLog) (medId sched : Nat) : Bool :=
  logs.any fun log => log.medication_id == medId && log.scheduled_time / 60 == sched / 60

/-- The four statuses assigned by `DoseLogging.generateScheduledDoses`. -/
inductive DoseStatus where
  | pending
  | taken
  | late
  | missed
  deriving Repr, DecidableEq

/-- Status classification of `DoseLogging.generateScheduledDoses`:
`taken` if a log matches; else `missed` if `now > addHours(scheduledTime, 4)`;
else `late` if `now > scheduledTime`; else `pending`. -/
def doseStatus (logs : List DoseLog) (medId sched now : Nat) : DoseStatus :=
  if matchesLog logs medId sched then .taken
  else if now > sched + fourHours then .missed
  else if now > sched then .late
  else .pending

/-- Per-occurrence view computed by `Reminders.generateScheduledDoses`:
a matched (logged) occurrence is not pushed at all; an unmatched one is
pushed only when `scheduledTime > now || isWithinInterval(now, [scheduledTime, scheduledTime+4h])`,
carrying `isDue = isWithinInterval(now, [scheduledTime, scheduledTime+4h])`
(`isWithinInterval` is inclusive at both ends).  `none` means the occurrence
is absent from the reminders list; `some d` means it is shown with `isDue = d`. -/
def remindersDoseView (logs : List DoseLog) (medId sched now : Nat) : Option Bool :=
  if matchesLog logs medId sched then none
  else if sched > now || (sched ≤ now && now ≤ sched + fourHours) then
    some (sched ≤ now && now ≤ sched + fourHours)
  else none

/-- Outcome of a PostgREST / SQL operation: either an error message or a value. -/
abbrev SqlResult (α : Type) : Type := Except String α

/-- Database state visible to the core: the `medications` and `dose_logs` tables. -/
structure DB where
  medications : List Medication
  dose_logs : List DoseLog
  deriving Repr, DecidableEq

/-- Insert into `dose_logs`, subject to the schema's constraints: the only
constraint on the table is `medication_id UUID REFERENCES medications(id) NOT NULL`
(a foreign key); there is no unique constraint on
`(medication_id, scheduled_time)`, so the row is appended unconditionally
whenever the foreign key is satisfied. -/
def insertDoseLog (db : DB) (log : DoseLog) : SqlResult DB :=
  if db.medications.any fun m => m.id == log.medication_id then
    .ok { db with dose_logs := db.dose_logs ++ [log] }
  else
    .error "foreign key violation"

/-- SQL three-valued logic for `v_user_id != auth.uid()` where `v_user_id`
may be NULL (no medication row matched the `SELECT ... INTO`): a comparison
with NULL is NULL, which an `IF` treats as not-true. -/
def sqlNeq (v : Option Nat) (uid : Nat) : Bool :=
  match v with
  | none => false
  | some u => u != uid

/-- The `log_dose` RPC of `supabase/schema.sql`: looks up the medication's
`user_id`, raises `Not authorized` when `v_user_id != auth.uid()` is true,
computes `v_taken_on_time := p_actual_time <= p_scheduled_time + INTERVAL '4 hours'`
and `v_reward_earned := v_taken_on_time`, and inserts one `dose_logs` row.
No duplicate check is performed. -/
def log_dose (db : DB) (uid pMedicationId pScheduledTime pActualTime : Nat) :
    SqlResult (DB × DoseLog) :=
  let vUserId : Option Nat :=
    (db.medications.find? fun m => m.id == pMedicationId).map Medication.user_id
  if sqlNeq vUserId uid then
    .error "Not authorized"
  else
    let t : Bool := decide (pActualTime ≤ pScheduledTime + fourHours)
    let log : DoseLog :=
      { medication_id := pMedicationId
        timestamp_taken := pActualTime
        scheduled_time := pScheduledTime
        taken_on_time := t
        reward_earned := t }
    (insertDoseLog db log).map fun db2 => (db2, log)

/-- Column list of the `dose_logs` table as declared in `supabase/schema.sql`. -/
def doseLogsColumns : List String :=
  ["id", "medication_id", "timestamp_taken", "scheduled_time",
   "taken_on_time", "reward_earned", "created_at"]

/-- A value appearing in an insert payload. -/
inductive SqlValue where
  | nat (n : Nat)
  | bool (b : Bool)
  deriving Repr, DecidableEq

/-- The insert payload built by `DoseLogging.handleMarkAsMissed`:
`{ medication_id, scheduled_time, timestamp_taken: new Date().toISOString(),
taken_on_time: false, reward_earned: false, missed: true, user_id }`. -/
def markAsMissedPayload (medId sched now uid : Nat) : List (String × SqlValue) :=
  [("medication_id", .nat medId),
   ("scheduled_time", .nat sched),
   ("timestamp_taken", .nat now),
   ("taken_on_time", .bool false),
   ("reward_earned", .bool false),
   ("missed", .bool true),
   ("user_id", .nat uid)]

/-- A table insert through the API layer: rejected when the payload names a
column that does not exist in the table's schema. -/
def tableInsert (columns : List String) (payload : List (String × SqlValue)) :
    SqlResult Unit :=
  if payload.all fun p => columns.contains p.1 then .ok ()
  else .error "column not found in schema"

/-- The dose-logs insert attempted by `DoseLogging.handleMarkAsMissed`. -/
def markAsMissedInsert (medId sched now uid : Nat) : SqlResult Unit :=
  tableInsert doseLogsColumns (markAsMissedPayload medId sched now uid)

/-- One `dose_logs` row as seen by `get_adherence_summary` after the join
with `medications` and the user/time filter: its `DATE_TRUNC('day', ...)`
group key, the joined medication name, and `taken_on_time`. -/
structure AdhLog where
  day : Nat
  medName : String
  takenOnTime : Bool
  deriving Repr, DecidableEq

/-- Group keys of the `adherence_data` CTE:
`GROUP BY DATE_TRUNC('day', scheduled_time), m.name`. -/
def adhKeys (logs : List AdhLog) : List (Nat × String) :=
  (logs.map fun l => (l.day, l.medName)).dedup

/-- Rows of one `(day, medication name)` group. -/
def adhGroup (logs : List AdhLog) (k : Nat × String) : List AdhLog :=
  logs.filter fun l => l.day == k.1 && l.medName == k.2

/-- Per-group on-time rate:
`CASE WHEN total_doses > 0 THEN (taken_on_time::float / total_doses) * 100 ELSE 0 END`
where `taken_on_time` is `SUM(CASE WHEN taken_on_time THEN 1 ELSE 0 END)`. -/
def groupRate (logs : List AdhLog) (k : Nat × String) : ℚ :=
  let g := adhGroup logs k
  if 0 < g.length then
    ((g.filter fun l => l.takenOnTime).length : ℚ) / (g.length : ℚ) * 100
  else 0

/-- SQL `ROUND(x, 2)`: round half away from zero to two decimals (all the
quantities rounded here are nonnegative, where this is `⌊x * 100 + 1/2⌋ / 100`). -/
def round2 (x : ℚ) : ℚ := ((x * 100 + 1 / 2).floor : ℚ) / 100

/-- The `weekly_adherence` field of `get_adherence_summary`:
`ROUND(AVG(CASE WHEN total_doses > 0 THEN (taken_on_time::float / total_doses) * 100 ELSE 0 END), 2)`
over the `(day, medication)` groups of `adherence_data`; SQL `AVG` of zero
rows is NULL, modelled as `none`. -/
def weeklyAdherence (logs : List AdhLog) : Option ℚ :=
  let ks := adhKeys logs
  if ks.isEmpty then none
  else some (round2 ((ks.map (groupRate logs)).sum / (ks.length : ℚ)))

/-- Per-medication missed total: the `SUM(missed_count)` of the `most_missed`
subquery, where each group contributes `COUNT(*) FILTER (WHERE NOT taken_on_time)`;
summed over a medication's groups this is the number of its logs with
`taken_on_time = false`. -/
def missedTotal (logs : List AdhLog) (name : String) : Nat :=
  (logs.filter fun l => l.medName == name && !l.takenOnTime).length

/-- Medication names appearing in `adherence_data` (every medication with at
least one log in the window). -/
def adhMedNames (logs : List AdhLog) : List String :=
  (logs.map fun l => l.medName).dedup

/-- Insertion into a list sorted by descending missed count (`ORDER BY missed_count DESC`;
SQL specifies no tie-break, this embedding keeps ties in arrival order). -/
def insertByCountDesc (p : String × Nat) : List (String × Nat) → List (String × Nat)
  | [] => [p]
  | q :: qs => if p.2 ≥ q.2 then p :: q :: qs else q :: insertByCountDesc p qs

/-- Sort by descending missed count. -/
def sortByCountDesc : List (String × Nat) → List (String × Nat)
  | [] => []
  | p :: ps => insertByCountDesc p (sortByCountDesc ps)

/-- The `most_missed` field of `get_adherence_summary`:
`SELECT medication_name, SUM(missed_count) FROM adherence_data GROUP BY medication_name ORDER BY missed_count DESC LIMIT 5`.
Every medication with a log in the window contributes a row, including those
whose missed total is zero. -/
def mostMissed (logs : List AdhLog) : List (String × Nat) :=
  (sortByCountDesc ((adhMedNames logs).map fun n => (n, missedTotal logs n))).take 5

/-- A numeric SQL value carrying its type: PostgreSQL function resolution
distinguishes `double precision` from `numeric`. -/
inductive SqlNum where
  | float8 (q : ℚ)
  | numeric (q : ℚ)
  deriving Repr

/-- SQL `ROUND(x, 2)`: defined for `numeric` arguments; for a
`double precision` argument no `round(double precision, integer)` overload
exists and `float8 -> numeric` is only an assignment cast, so resolution
fails and the statement raises. -/
def sqlRound2 : SqlNum → SqlResult ℚ
  | .numeric q => .ok (round2 q)
  | .float8 _ => .error "function round(double precision, integer) does not exist"

/-- The `get_adherence_summary` function of `supabase/schema.sql`, applied
to the `adherence_data` rows of the caller's last-7-days window:
`weekly_adherence` is `ROUND(AVG(CASE ... (taken_on_time::float / total_doses) * 100 ...), 2)`
— the `::float` cast makes the `AVG` argument `double precision`, so the
`ROUND` call cannot be resolved and the whole statement raises before
producing any of its three fields; `calendar_data` contains the same
ill-typed `ROUND`, and `most_missed` is a sub-select of the same statement. -/
def get_adherence_summary (logs : List AdhLog) :
    SqlResult (ℚ × List (String × ℕ) × List ((ℕ × String) × ℚ)) :=
  (sqlRound2 (.float8
      (((adhKeys logs).map (groupRate logs)).sum / ((adhKeys logs).length : ℚ)))).bind
    fun w =>
      ((adhKeys logs).mapM fun k =>
          (sqlRound2 (.float8 (groupRate logs k))).map fun r => (k, r)).bind
        fun cal => .ok (w, mostMissed logs, cal)

/-- Bridge between the computable `Rat.floor` and the `FloorRing` floor. -/
theorem ratFloor_eq (q : ℚ) : q.floor = ⌊q⌋ := by rw [Rat.floor_def', Rat.floor_def]

/-- Full case analysis of the `DoseLogging` classifier, shared by several
claim proofs below. -/
theorem doseStatus_cases (logs : List DoseLog) (medId sched now : ℕ) :
    (doseStatus logs medId sched now = .taken ↔ matchesLog logs medId sched = true) ∧
    (doseStatus logs medId sched now = .missed ↔
      matchesLog logs medId sched = false ∧ sched + fourHours < now) ∧
    (doseStatus logs medId sched now = .late ↔
      matchesLog logs medId sched = false ∧ sched < now ∧ now ≤ sched + fourHours) ∧
    (doseStatus logs medId sched now = .pending ↔
      matchesLog logs medId sched = false ∧ now ≤ sched) := by
  cases hm : matchesLog logs medId sched
  · simp only [doseStatus, hm, Bool.false_eq_true, if_false]
    split_ifs with h1 h2 <;> simp_all <;> omega
  · simp [doseStatus, hm]

/-- Full case analysis of the `Reminders` per-occurrence view, shared by
several claim proofs below. -/
theorem remindersDoseView_cases (logs : List DoseLog) (medId sched now : ℕ) :
    (remindersDoseView logs medId sched now = some true ↔
      matchesLog logs medId sched = false ∧ sched ≤ now ∧ now ≤ sched + fourHours) ∧
    (remindersDoseView logs medId sched now = some false ↔
      matchesLog logs medId sched = false ∧ now < sched) ∧
    (remindersDoseView logs medId sched now = none ↔
      matchesLog logs medId sched = true ∨ sched + fourHours < now) := by
  cases hm : matchesLog logs medId sched
  · simp only [remindersDoseView, hm, Bool.false_eq_true, if_false]
    split_ifs with h1 <;> simp_all <;> omega
  · simp [remindersDoseView, hm]

/-- C3 counterexample: the claim asserts an unlogged occurrence is Due/Late
whenever `scheduledInstant ≤ now ≤ scheduledInstant + 4h`, but at
`now = scheduledInstant` (no logs, medication 1, scheduled second 3600,
now 3600) the classifier uses the strict test `now > scheduledTime` and
returns `pending`, not `late`. -/
theorem C3_counterexample :
    doseStatus [] 1 3600 3600 = .pending ∧ doseStatus [] 1 3600 3600 ≠ .late := by
  exact ⟨by decide, by decide⟩

/-- C3 (amended): for every occurrence, given the dose logs and a single
instant `now`, the classifier assigns exactly one of four statuses with
these boundaries: Taken iff a log matches the occurrence's medication id
and scheduled instant to the minute; otherwise Missed iff
`now > scheduledInstant + 4h`; otherwise Late iff
`scheduledInstant < now ≤ scheduledInstant + 4h` (strict lower bound);
otherwise Pending (`now ≤ scheduledInstant`).  An unlogged occurrence at
`scheduledInstant = now - 4h00m01s` is Missed and one at `now - 3h59m59s`
is Late. -/
theorem C3_classification_boundaries :
    (∀ (logs : List DoseLog) (medId sched now : ℕ),
      (doseStatus logs medId sched now = .taken ↔
        matchesLog logs medId sched = true) ∧
      (doseStatus logs medId sched now = .missed ↔
        matchesLog logs medId sched = false ∧ sched + fourHours < now) ∧
      (doseStatus logs medId sched now = .late ↔
        matchesLog logs medId sched = false ∧ sched < now ∧ now ≤ sched + fourHours) ∧
      (doseStatus logs medId sched now = .pending ↔
        matchesLog logs medId sched = false ∧ now ≤ sched)) ∧
    doseStatus [] 1 (100000 - 14401) 100000 = .missed ∧
    doseStatus [] 1 (100000 - 14399) 100000 = .late :=
  ⟨doseStatus_cases, by decide, by decide⟩

/-- C9: any matching dose log (same medication id, same scheduled instant to
the minute) makes the classifier return Taken, never Missed, regardless of
the log's content — in particular regardless of `taken_on_time`. -/
theorem C9_any_matching_log_is_taken (logs : List DoseLog) (medId sched now : ℕ)
    (h : matchesLog logs medId sched = true) :
    doseStatus logs medId sched now = .taken ∧
    doseStatus logs medId sched now ≠ .missed := by
  refine ⟨((doseStatus_cases logs medId sched now).1).mpr h, ?_⟩
  rw [((doseStatus_cases logs medId sched now).1).mpr h]
  decide

/-- C9 witness: a dose explicitly recorded as missed via mark-as-missed
(`taken_on_time = false`, `reward_earned = false`) is classified Taken. -/
theorem C9_witness :
    doseStatus [⟨1, 50000, 3600, false, false⟩] 1 3620 90000 = .taken ∧
    doseStatus [⟨1, 50000, 3600, false, false⟩] 1 3620 90000 ≠ .missed :=
  C9_any_matching_log_is_taken _ 1 3620 90000 (by decide)

/-- C4 counterexample: the claim asserts the reminders view and the
dose-logging view derive the same status and inclusion for the same
occurrence, but for an unlogged occurrence at `now = scheduledInstant`
(medication 1, scheduled second 3600) Reminders shows it as due
(`some true`) while DoseLogging classifies it `pending`; and a logged
occurrence (log at scheduled second 3600, viewed at 5000) is omitted by
Reminders (`none`) while DoseLogging shows it as `taken`. -/
theorem C4_counterexample :
    remindersDoseView [] 1 3600 3600 = some true ∧
    doseStatus [] 1 3600 3600 = .pending ∧
    remindersDoseView [⟨1, 5000, 3600, true, true⟩] 1 3600 5000 = none ∧
    doseStatus [⟨1, 5000, 3600, true, true⟩] 1 3600 5000 = .taken := by
  refine ⟨by decide, by decide, by decide, by decide⟩

/-- C4 (amended): for every medication, dose-log set and instant, the two
screens agree up to these two systematic differences: Reminders shows an
occurrence as due (`some true`) exactly when DoseLogging classifies it
`late` or when it is unlogged with `now = scheduledInstant` (where
DoseLogging says `pending`); Reminders shows it as upcoming (`some false`)
exactly when DoseLogging says `pending` and `now ≠ scheduledInstant`; and
Reminders omits (`none`) exactly the occurrences DoseLogging classifies
`taken` or `missed`. -/
theorem C4_screen_correspondence (logs : List DoseLog) (medId sched now : ℕ) :
    (remindersDoseView logs medId sched now = some true ↔
      doseStatus logs medId sched now = .late ∨
        (matchesLog logs medId sched = false ∧ now = sched)) ∧
    (remindersDoseView logs medId sched now = some false ↔
      doseStatus logs medId sched now = .pending ∧ now ≠ sched) ∧
    (remindersDoseView logs medId sched now = none ↔
      doseStatus logs medId sched now = .taken ∨
        doseStatus logs medId sched now = .missed) := by
  obtain ⟨r1, r2, r3⟩ := remindersDoseView_cases logs medId sched now
  obtain ⟨d1, d2, d3, d4⟩ := doseStatus_cases logs medId sched now
  refine ⟨?_, ?_, ?_⟩
  · rw [r1, d3]
    constructor
    · rintro ⟨hm, h1, h2⟩
      rcases Nat.lt_or_ge sched now with h | h
      · exact Or.inl ⟨hm, h, h2⟩
      · exact Or.inr ⟨hm, by omega⟩
    · rintro (⟨hm, h1, h2⟩ | ⟨hm, h⟩)
      · exact ⟨hm, by omega, h2⟩
      · exact ⟨hm, by omega, by omega⟩
  · rw [r2, d4]
    constructor
    · rintro ⟨hm, h⟩
      exact ⟨⟨hm, by omega⟩, by omega⟩
    · rintro ⟨⟨hm, h⟩, hne⟩
      exact ⟨hm, by omega⟩
  · rw [r3, d1, d2]
    constructor
    · rintro (hm | h)
      · exact Or.inl hm
      · cases hmm : matchesLog logs medId sched
        · exact Or.inr ⟨rfl, h⟩
        · exact Or.inl rfl
    · rintro (hm | ⟨hm, h⟩)
      · exact Or.inl hm
      · exact Or.inr h

/-- C2 counterexample: the claim places occurrence `i` at
`startHour + i * (endHour - startHour) / frequency` hours with the default
08:00-20:00 window, so a frequency-2 medication's second dose would fall at
14:00 (minute 840 of the day); the program's binary64 evaluation of
`8 + i * (16 / frequency)` places it at 16:00 (minute 960).  And the
claim's `minutes = round((hour mod 1) * 60)` does not describe the program
either: at frequency 3, dose 1 that formula gives minute-of-day 800
(13:20), while the program computes 799 (13:19) — the float value of the
hour falls just below 40/3 and `setHours` truncates the minutes argument. -/
theorem C2_counterexample :
    jsMinuteOfDay 2 1 = 960 ∧ jsMinuteOfDay 2 1 ≠ 14 * 60 ∧
    jsMinuteOfDay 3 1 = 799 ∧ jsMinuteOfDay 3 1 ≠ 800 := by
  exact ⟨by decide, by decide, by decide, by decide⟩

/-- The exact-rational reference value in closed form: the spec-side
reading of the formula would place dose `i` at minute
`480 + (960 * i) / frequency` of the day.  About the reference definition
only; the program's binary64 minutes differ at some frequencies. -/
theorem specMinuteOfDay_formula (f i : ℕ) (hf : 0 < f) :
    specMinuteOfDay f i = ((480 + (960 * i) / f : ℕ) : ℤ) := by
  have hf0 : (f : ℚ) ≠ 0 := Nat.cast_ne_zero.mpr hf.ne'
  unfold specMinuteOfDay specDoseHour
  rw [ratFloor_eq]
  have hq : (8 + (i : ℚ) * (16 / (f : ℚ))) * 60 =
      ((480 * f + 960 * i : ℕ) : ℚ) / ((f : ℕ) : ℚ) := by
    field_simp
    ring
  rw [hq, Rat.floor_natCast_div_natCast]
  have hnat : (480 * f + 960 * i) / f = 480 + 960 * i / f := by
    rw [show 480 * f + 960 * i = f * 480 + 960 * i by ring, Nat.mul_add_div hf]
  rw [← hnat]
  norm_cast

/-- C2 (amended): both screens place dose `i` at the binary64 evaluation of
`8 + i * (16 / frequency)` hours into the day — an equal subdivision of the
span from 08:00 towards midnight, not of an 08:00-20:00 window — and the
displayed minute is the truncation (not rounding) of the binary64 product
`(hour % 1) * 60`.  With frequency 2 the arithmetic is exact and the doses
fall at exactly 08:00 and 16:00; at other frequencies binary64 rounding can
land a dose one minute below the exact-rational value: frequency 3 gives
08:00, 13:19, 18:39, frequency 5 dose 1 gives 11:11 and frequency 6 dose 1
gives 10:39, each one minute short of the exact reading, while frequencies
4 and 7 happen to agree with it (frequency 7 dose 4 at 17:08, truncated,
not the rounded 17:09). -/
theorem C2_schedule_minutes :
    jsMinuteOfDay 1 0 = 480 ∧
    jsMinuteOfDay 2 0 = 480 ∧ jsMinuteOfDay 2 1 = 960 ∧
    jsMinuteOfDay 3 0 = 480 ∧ jsMinuteOfDay 3 1 = 799 ∧ jsMinuteOfDay 3 2 = 1119 ∧
    jsMinuteOfDay 4 0 = 480 ∧ jsMinuteOfDay 4 1 = 720 ∧
    jsMinuteOfDay 4 2 = 960 ∧ jsMinuteOfDay 4 3 = 1200 ∧
    jsMinuteOfDay 5 1 = 671 ∧ jsMinuteOfDay 6 1 = 639 ∧ jsMinuteOfDay 7 4 = 1028 ∧
    specMinuteOfDay 3 1 = 800 ∧ specMinuteOfDay 5 1 = 672 ∧ specMinuteOfDay 6 1 = 640 := by
  refine ⟨by decide, by decide, by decide, by decide, by decide, by decide,
    by decide, by decide, by decide, by decide, by decide, by decide, by decide,
    ?_, ?_, ?_⟩ <;>
    norm_num [specMinuteOfDay, specDoseHour, ratFloor_eq]

/-- Successful run of `log_dose`: when the medication exists and belongs to
the caller, exactly one row is appended, with
`taken_on_time = reward_earned = (actual ≤ scheduled + 4h)`.
Shared by several claim proofs below. -/
theorem log_dose_ok (db : DB) (uid s a : ℕ) (med : Medication)
    (hfind : db.medications.find? (fun m => m.id == med.id) = some med)
    (hu : med.user_id = uid) :
    log_dose db uid med.id s a =
      .ok ({ db with dose_logs := db.dose_logs ++
          [⟨med.id, a, s, decide (a ≤ s + fourHours), decide (a ≤ s + fourHours)⟩] },
        ⟨med.id, a, s, decide (a ≤ s + fourHours), decide (a ≤ s + fourHours)⟩) := by
  have hmem : med ∈ db.medications := List.mem_of_find?_eq_some hfind
  have hany : (db.medications.any fun m => m.id == med.id) = true :=
    List.any_eq_true.mpr ⟨med, hmem, by simp⟩
  simp [log_dose, hfind, hu, sqlNeq, insertDoseLog, hany, Except.map]

/-- C6: every successful `log_dose` call creates one DoseLog with
`taken_on_time = (actual ≤ scheduled + 4 hours)` and
`reward_earned = taken_on_time`. -/
theorem C6_log_dose_on_time_reward (db : DB) (uid s a : ℕ) (med : Medication)
    (hfind : db.medications.find? (fun m => m.id == med.id) = some med)
    (hu : med.user_id = uid) :
    log_dose db uid med.id s a =
      .ok ({ db with dose_logs := db.dose_logs ++
          [⟨med.id, a, s, decide (a ≤ s + fourHours), decide (a ≤ s + fourHours)⟩] },
        ⟨med.id, a, s, decide (a ≤ s + fourHours), decide (a ≤ s + fourHours)⟩) :=
  log_dose_ok db uid s a med hfind hu

/-- C6 witness: taking the 08:00 dose (second 28800) at 09:30 (second 34200)
stores `taken_on_time = true, reward_earned = true`; taking it at 13:00
(second 46800, more than four hours late) stores
`taken_on_time = false, reward_earned = false`. -/
theorem C6_log_dose_on_time_reward_witness :
    log_dose ⟨[⟨1, 7, "A", 2⟩], []⟩ 7 1 28800 34200 =
      .ok (⟨[⟨1, 7, "A", 2⟩], [⟨1, 34200, 28800, true, true⟩]⟩,
        ⟨1, 34200, 28800, true, true⟩) ∧
    log_dose ⟨[⟨1, 7, "A", 2⟩], []⟩ 7 1 28800 46800 =
      .ok (⟨[⟨1, 7, "A", 2⟩], [⟨1, 46800, 28800, false, false⟩]⟩,
        ⟨1, 46800, 28800, false, false⟩) :=
  ⟨C6_log_dose_on_time_reward ⟨[⟨1, 7, "A", 2⟩], []⟩ 7 28800 34200
      ⟨1, 7, "A", 2⟩ (by decide) rfl,
   C6_log_dose_on_time_reward ⟨[⟨1, 7, "A", 2⟩], []⟩ 7 28800 46800
      ⟨1, 7, "A", 2⟩ (by decide) rfl⟩

/-- C10: calling `log_dose` with a medication id matching no `medications`
row leaves `v_user_id` NULL, so `v_user_id != auth.uid()` is NULL, the
`IF` does not raise `Not authorized`, and the function proceeds to the
`dose_logs` insert attempt (which then fails on the foreign key, not on
authorization). -/
theorem C10_unknown_medication_skips_auth_check (db : DB) (uid pMed s a : ℕ)
    (h : ∀ m ∈ db.medications, m.id ≠ pMed) :
    log_dose db uid pMed s a ≠ .error "Not authorized" ∧
    log_dose db uid pMed s a =
      (insertDoseLog db
          ⟨pMed, a, s, decide (a ≤ s + fourHours), decide (a ≤ s + fourHours)⟩).map
        (fun db2 =>
          (db2, ⟨pMed, a, s, decide (a ≤ s + fourHours), decide (a ≤ s + fourHours)⟩)) ∧
    log_dose db uid pMed s a = .error "foreign key violation" := by
  have hfind : db.medications.find? (fun m => m.id == pMed) = none := by
    rw [List.find?_eq_none]
    intro m hm
    simpa using h m hm
  have hany : (db.medications.any fun m => m.id == pMed) = false := by
    rw [List.any_eq_false]
    intro m hm
    simpa using h m hm
  refine ⟨?_, ?_, ?_⟩
  · simp [log_dose, hfind, sqlNeq, insertDoseLog, hany, Except.map]
  · simp [log_dose, hfind, sqlNeq]
  · simp [log_dose, hfind, sqlNeq, insertDoseLog, hany, Except.map]

/-- C10 witness: with an empty `medications` table, `log_dose` fails with
the foreign-key error, not with `Not authorized`. -/
theorem C10_unknown_medication_skips_auth_check_witness :
    log_dose ⟨[], []⟩ 7 1 28800 30000 ≠ .error "Not authorized" ∧
    log_dose ⟨[], []⟩ 7 1 28800 30000 =
      (insertDoseLog ⟨[], []⟩ ⟨1, 30000, 28800, true, true⟩).map
        (fun db2 => (db2, ⟨1, 30000, 28800, true, true⟩)) ∧
    log_dose ⟨[], []⟩ 7 1 28800 30000 = .error "foreign key violation" := by
  simpa using
    C10_unknown_medication_skips_auth_check ⟨[], []⟩ 7 1 28800 30000 (by simp)

/-- C1 counterexample: the claim asserts that a second `record` for the same
`(medicationId, scheduledInstant)` is rejected with `DuplicateLogError` by
the data layer, leaving exactly one stored DoseLog.  In the code neither
`dose_logs` nor `log_dose` performs any duplicate check: calling `log_dose`
twice for medication 1 at scheduled second 28800 succeeds both times and
leaves two stored rows for the pair. -/
theorem C1_counterexample :
    ((log_dose ⟨[⟨1, 7, "A", 2⟩], []⟩ 7 1 28800 30000).bind
        fun r => log_dose r.1 7 1 28800 31000) =
      .ok (⟨[⟨1, 7, "A", 2⟩],
          [⟨1, 30000, 28800, true, true⟩, ⟨1, 31000, 28800, true, true⟩]⟩,
        ⟨1, 31000, 28800, true, true⟩) := by
  rfl

/-- C1 (amended): the data layer enforces no uniqueness on
`(medication_id, scheduled_time)`: `dose_logs` has no unique constraint and
`log_dose` performs no duplicate check, so recording twice for the same
pair succeeds both times — no `DuplicateLogError` exists — and both
DoseLogs are stored. -/
theorem C1_duplicate_records_both_stored (db : DB) (uid s a1 a2 : ℕ)
    (med : Medication)
    (hfind : db.medications.find? (fun m => m.id == med.id) = some med)
    (hu : med.user_id = uid) :
    ((log_dose db uid med.id s a1).bind fun r => log_dose r.1 uid med.id s a2) =
      .ok ({ db with dose_logs := db.dose_logs ++
          [⟨med.id, a1, s, decide (a1 ≤ s + fourHours), decide (a1 ≤ s + fourHours)⟩,
           ⟨med.id, a2, s, decide (a2 ≤ s + fourHours), decide (a2 ≤ s + fourHours)⟩] },
        ⟨med.id, a2, s, decide (a2 ≤ s + fourHours), decide (a2 ≤ s + fourHours)⟩) := by
  have h2 := log_dose_ok
    { db with dose_logs := db.dose_logs ++
        [⟨med.id, a1, s, decide (a1 ≤ s + fourHours), decide (a1 ≤ s + fourHours)⟩] }
    uid s a2 med hfind hu
  rw [log_dose_ok db uid s a1 med hfind hu]
  refine h2.trans ?_
  rw [List.append_assoc]
  rfl

/-- C1 witness: two concrete recordings of the 08:00 dose of medication 1
both succeed, storing two rows. -/
theorem C1_duplicate_records_both_stored_witness :
    ((log_dose ⟨[⟨1, 7, "A", 2⟩], []⟩ 7 1 28800 29000).bind
        fun r => log_dose r.1 7 1 28800 29500) =
      .ok (⟨[⟨1, 7, "A", 2⟩],
          [⟨1, 29000, 28800, true, true⟩, ⟨1, 29500, 28800, true, true⟩]⟩,
        ⟨1, 29500, 28800, true, true⟩) := by
  simpa using
    C1_duplicate_records_both_stored ⟨[⟨1, 7, "A", 2⟩], []⟩ 7 28800 29000 29500
      ⟨1, 7, "A", 2⟩ (by decide) rfl

/-- C8: the `handleMarkAsMissed` insert does carry
`taken_on_time = false`, `reward_earned = false` and
`timestamp_taken = ` the recording instant, but its payload also names the
columns `missed` and `user_id`, which do not exist in the `dose_logs`
schema, so the data layer rejects the insert and no row is ever created. -/
theorem C8_mark_as_missed_insert_rejected (medId sched now uid : ℕ) :
    markAsMissedInsert medId sched now uid = .error "column not found in schema" ∧
    ("taken_on_time", SqlValue.bool false) ∈ markAsMissedPayload medId sched now uid ∧
    ("reward_earned", SqlValue.bool false) ∈ markAsMissedPayload medId sched now uid ∧
    ("timestamp_taken", SqlValue.nat now) ∈ markAsMissedPayload medId sched now uid ∧
    "missed" ∉ doseLogsColumns := by
  refine ⟨rfl, by simp [markAsMissedPayload], by simp [markAsMissedPayload],
    by simp [markAsMissedPayload], by decide⟩

/-- C8 witness: a concrete mark-as-missed click (medication 1, scheduled
second 28800, clicked at second 30000, user 7) is rejected by the schema. -/
theorem C8_mark_as_missed_insert_rejected_witness :
    markAsMissedInsert 1 28800 30000 7 = .error "column not found in schema" :=
  (C8_mark_as_missed_insert_rejected 1 28800 30000 7).1

/-- Dedup of a nonempty constant list is the singleton. -/
theorem dedup_replicate {α : Type} [DecidableEq α] (n : ℕ) (a : α) (hn : n ≠ 0) :
    (List.replicate n a).dedup = [a] := by
  induction n with
  | zero => exact absurd rfl hn
  | succ m ih =>
    cases m with
    | zero => simp
    | succ k =>
      rw [List.replicate_succ, List.dedup_cons_of_mem (by simp)]
      exact ih (Nat.succ_ne_zero k)

set_option maxHeartbeats 1000000 in
/-- The would-be aggregation is distribution-dependent: had the `ROUND`
call been well-typed, the statement would average per-`(day, medication)`
group on-time rates, so seven logs of one medication with six on time,
distributed as (1 on-time + 1 late) on day 1 and 5 on-time on day 2, would
yield `ROUND(AVG(50, 100), 2) = 75` — neither 85.71
(`round(100 * 6 / 7, 2)`) nor the 100 that "any log counts as Taken"
would give. -/
theorem weeklyAdherence_distribution_dependent :
    weeklyAdherence
      [⟨1, "A", true⟩, ⟨1, "A", false⟩, ⟨2, "A", true⟩, ⟨2, "A", true⟩,
       ⟨2, "A", true⟩, ⟨2, "A", true⟩, ⟨2, "A", true⟩] = some 75 ∧
    (75 : ℚ) ≠ 8571 / 100 ∧ (75 : ℚ) ≠ 100 := by
  refine ⟨?_, by norm_num, by norm_num⟩
  norm_num [weeklyAdherence, adhKeys, groupRate, adhGroup, round2, ratFloor_eq,
    List.dedup]

/-- Single-group value of the would-be aggregation: when all logs fall in
one `(day, medication)` group the averaged quantity reduces to
`round2(100 * onTime / total)`.  This describes the sub-expression the
statement builds, not a value the program ever returns — the enclosing
`ROUND` call raises first (see `C5_adherence_summary_always_raises`). -/
theorem weeklyAdherence_single_group (l : List AdhLog) (hne : l ≠ [])
    (hall : ∀ x ∈ l, x.day = 1 ∧ x.medName = "A") :
    weeklyAdherence l =
      some (round2 (((l.filter fun x => x.takenOnTime).length : ℚ) /
        (l.length : ℚ) * 100)) := by
  have hkeys : adhKeys l = [(1, "A")] := by
    have hmap : l.map (fun x => (x.day, x.medName)) =
        List.replicate l.length ((1 : ℕ), "A") := by
      rw [← List.length_map l (fun x => (x.day, x.medName))]
      apply List.eq_replicate_of_mem
      intro y hy
      rcases List.mem_map.mp hy with ⟨x, hx, rfl⟩
      rw [(hall x hx).1, (hall x hx).2]
    unfold adhKeys
    rw [hmap]
    exact dedup_replicate _ _ (by simpa using hne)
  have hgroup : adhGroup l (1, "A") = l := by
    unfold adhGroup
    apply List.filter_eq_self.mpr
    intro x hx
    simp [(hall x hx).1, (hall x hx).2]
  have hlen : 0 < l.length := List.length_pos.mpr hne
  unfold weeklyAdherence
  rw [hkeys]
  simp only [List.isEmpty_cons, List.map_cons, List.map_nil, List.sum_cons,
    List.sum_nil, add_zero, List.length_cons, List.length_nil, Nat.cast_one,
    zero_add, div_one, Bool.false_eq_true, if_false]
  unfold groupRate
  rw [hgroup, if_pos hlen]

/-- Single-group week evaluation: seven logs of medication A on one day,
six on time, would evaluate to 85.71 — the value the claim's scenario
expects, never actually reached by the raising statement. -/
theorem weeklyAdherence_single_group_eval :
    weeklyAdherence
      [⟨1, "A", true⟩, ⟨1, "A", true⟩, ⟨1, "A", true⟩, ⟨1, "A", true⟩,
       ⟨1, "A", true⟩, ⟨1, "A", true⟩, ⟨1, "A", false⟩] = some (8571 / 100) := by
  rw [weeklyAdherence_single_group _ (by simp) (by decide)]
  norm_num [round2, ratFloor_eq, List.filter]

/-- C5: `get_adherence_summary` raises on every call — the
`weekly_adherence` expression is `ROUND(AVG(float8-valued expr), 2)` and no
`round(double precision, integer)` exists — so the overall adherence
percentage the claim describes (85.71 for the week scenario) is never
produced; the callers only ever see their error fallback. -/
theorem C5_adherence_summary_always_raises :
    (∀ logs : List AdhLog, get_adherence_summary logs =
      .error "function round(double precision, integer) does not exist") ∧
    get_adherence_summary
      [⟨1, "A", true⟩, ⟨1, "A", true⟩, ⟨1, "A", true⟩, ⟨1, "A", true⟩,
       ⟨1, "A", true⟩, ⟨1, "A", true⟩, ⟨1, "A", false⟩] =
      .error "function round(double precision, integer) does not exist" := by
  exact ⟨fun logs => rfl, rfl⟩

/-- Inserting into the descending-by-count order adds one element. -/
theorem length_insertByCountDesc (p : String × ℕ) (l : List (String × ℕ)) :
    (insertByCountDesc p l).length = l.length + 1 := by
  induction l with
  | nil => rfl
  | cons q qs ih =>
    by_cases h : p.2 ≥ q.2 <;> simp [insertByCountDesc, h, ih]

/-- Membership through the descending insertion. -/
theorem mem_insertByCountDesc (x p : String × ℕ) (l : List (String × ℕ)) :
    x ∈ insertByCountDesc p l ↔ x = p ∨ x ∈ l := by
  induction l with
  | nil => simp [insertByCountDesc]
  | cons q qs ih =>
    by_cases h : p.2 ≥ q.2
    · simp [insertByCountDesc, h]
    · simp [insertByCountDesc, h, ih]
      tauto

/-- Descending insertion preserves the descending-count order. -/
theorem pairwise_insertByCountDesc (p : String × ℕ) (l : List (String × ℕ))
    (h : List.Pairwise (fun a b : String × ℕ => b.2 ≤ a.2) l) :
    List.Pairwise (fun a b : String × ℕ => b.2 ≤ a.2) (insertByCountDesc p l) := by
  induction l with
  | nil => simp [insertByCountDesc]
  | cons q qs ih =>
    rcases List.pairwise_cons.mp h with ⟨hq, hqs⟩
    by_cases hpq : p.2 ≥ q.2
    · simp only [insertByCountDesc, if_pos hpq]
      refine List.pairwise_cons.mpr ⟨?_, h⟩
      intro b hb
      rcases List.mem_cons.mp hb with rfl | hb2
      · exact hpq
      · exact le_trans (hq b hb2) hpq
    · simp only [insertByCountDesc, if_neg hpq]
      refine List.pairwise_cons.mpr ⟨?_, ih hqs⟩
      intro b hb
      rcases (mem_insertByCountDesc b p qs).mp hb with rfl | hb2
      · exact Nat.le_of_not_le hpq
      · exact hq b hb2

/-- Sorting by descending count preserves length. -/
theorem length_sortByCountDesc (l : List (String × ℕ)) :
    (sortByCountDesc l).length = l.length := by
  induction l with
  | nil => rfl
  | cons p ps ih => simp [sortByCountDesc, length_insertByCountDesc, ih]

/-- Sorting by descending count preserves membership. -/
theorem mem_sortByCountDesc (x : String × ℕ) (l : List (String × ℕ)) :
    x ∈ sortByCountDesc l ↔ x ∈ l := by
  induction l with
  | nil => simp [sortByCountDesc]
  | cons p ps ih => simp [sortByCountDesc, mem_insertByCountDesc, ih]

/-- The result of sorting by descending count is descending. -/
theorem pairwise_sortByCountDesc (l : List (String × ℕ)) :
    List.Pairwise (fun a b : String × ℕ => b.2 ≤ a.2) (sortByCountDesc l) := by
  induction l with
  | nil => simp [sortByCountDesc]
  | cons p ps ih => exact pairwise_insertByCountDesc p _ ih

/-- The sub-select's own semantics, had the statement been runnable: a
medication all of whose logs are on time would still appear with count 0
rather than being excluded, and equal missed counts would keep
group-arrival order rather than being re-ordered by name ascending. -/
theorem mostMissed_zero_and_tie_order :
    mostMissed [⟨1, "A", true⟩] = [("A", 0)] ∧
    mostMissed [⟨1, "B", false⟩, ⟨1, "A", false⟩] = [("B", 1), ("A", 1)] := by
  exact ⟨by decide, by decide⟩

/-- Shape of the `most_missed` sub-select in isolation (never reached by
the program, whose enclosing statement raises): it ranks every medication
appearing in the window's logs — including those with zero not-on-time
logs — by the number of logs with `taken_on_time = false`, descending with
no name tie-break, truncated to the top 5. -/
theorem mostMissed_spec (logs : List AdhLog) :
    (mostMissed logs).length = min 5 (adhMedNames logs).length ∧
    List.Pairwise (fun a b : String × ℕ => b.2 ≤ a.2) (mostMissed logs) ∧
    (∀ p ∈ mostMissed logs, p.1 ∈ adhMedNames logs ∧ p.2 = missedTotal logs p.1) ∧
    (∀ n ∈ adhMedNames logs, (adhMedNames logs).length ≤ 5 →
      (n, missedTotal logs n) ∈ mostMissed logs) := by
  refine ⟨?_, ?_, ?_, ?_⟩
  · unfold mostMissed
    rw [List.length_take, length_sortByCountDesc, List.length_map]
  · exact List.Pairwise.sublist (List.take_sublist _ _) (pairwise_sortByCountDesc _)
  · intro p hp
    have hp2 := List.mem_of_mem_take hp
    have hp3 := (mem_sortByCountDesc _ _).mp hp2
    rcases List.mem_map.mp hp3 with ⟨n, hn, rfl⟩
    exact ⟨hn, rfl⟩
  · intro n hn h5
    have hmem : (n, missedTotal logs n) ∈
        (adhMedNames logs).map fun m => (m, missedTotal logs m) :=
      List.mem_map.mpr ⟨n, hn, rfl⟩
    unfold mostMissed
    rw [List.take_of_length_le (by rw [length_sortByCountDesc, List.length_map]; exact h5)]
    exact (mem_sortByCountDesc _ _).mpr hmem

/-- C7: the missed-medication ranking is never produced — `most_missed` is
a sub-select of the same statement whose ill-typed `ROUND` calls make
`get_adherence_summary` raise on every call — and even the sub-select's
own text contradicts the claim: a zero-missed medication would be listed
with count 0, not excluded, and ties would not be re-ordered by name. -/
theorem C7_most_missed_never_produced :
    get_adherence_summary [⟨1, "A", true⟩] =
      .error "function round(double precision, integer) does not exist" ∧
    mostMissed [⟨1, "A", true⟩] = [("A", 0)] ∧
    mostMissed [⟨1, "B", false⟩, ⟨1, "A", false⟩] = [("B", 1), ("A", 1)] := by
  exact ⟨rfl, by decide, by decide⟩

